import Mathlib

/-!
Verification development for the video-OCR pipeline.

The embedding covers the two reimplementable components of the repository:

* the recognizer wrapper in `backend/ocr_engine.py.backup`
  (`extract_text_fast`, `extract_text_accurate`, `extract_code`,
  `extract_text_with_confidence`, and the engine-availability behaviour), and
* the fast preprocessing pipeline `preprocess_image_fast`
  (grayscale decode, Otsu binarization, fixed 3x3 sharpening convolution) as
  given in the backend sources embedded in `extension/popup.js`.

Python strings are embedded as `List Char`; Python floats arising from the
confidence average are embedded as exact rationals; the Tesseract engine and
the image codec, which are external libraries, are abstracted as parameters.
-/

/-! ### Python string primitives -/

/-- Whitespace in the sense of Python `str.strip` (ASCII fragment). -/
def pyIsSpace (c : Char) : Bool :=
  c = ' ' || c = '\t' || c = '\n' || c = '\r' || c = Char.ofNat 11 || c = Char.ofNat 12

/-- Python `str.lstrip()`. -/
def pyLstrip (l : List Char) : List Char := l.dropWhile pyIsSpace

/-- Python `str.rstrip()`. -/
def pyRstrip (l : List Char) : List Char := (l.reverse.dropWhile pyIsSpace).reverse

/-- Python `str.strip()`. -/
def pyStrip (l : List Char) : List Char := pyLstrip (pyRstrip l)

/-- Python `sep.join(parts)`. -/
def pyJoin (sep : List Char) : List (List Char) → List Char
  | [] => []
  | [x] => x
  | x :: y :: r => x ++ sep ++ pyJoin sep (y :: r)

/-! ### Rounding as in Python `round(x, 2)` (half-to-even on the exact value) -/

/-- Round a rational to the nearest integer, ties to even, as Python `round`. -/
def roundHalfEven (x : ℚ) : ℤ :=
  let f := ⌊x⌋
  let r := x - f
  if r < 1/2 then f
  else if 1/2 < r then f + 1
  else if f % 2 = 0 then f else f + 1

/-- Python `round(x, 2)` on the exact rational value. -/
def pyRound2 (x : ℚ) : ℚ := (roundHalfEven (100 * x) : ℚ) / 100

/-! ### Tesseract configuration records

One field per `-c` parameter (or command-line flag) that appears in some
config string of `backend/ocr_engine.py.backup`; `none` means the parameter
is absent from that config string. -/

structure TessConfig where
  oem : Nat
  psm : Nat
  char_blacklist : Option (List Char) := none
  do_invert : Option Nat := none
  load_system_dawg : Option Nat := none
  load_freq_dawg : Option Nat := none
  load_punc_dawg : Option Nat := none
  load_number_dawg : Option Nat := none
  load_unambig_dawg : Option Nat := none
  load_bigram_dawg : Option Nat := none
  load_fixed_length_dawgs : Option Nat := none
  wordrec_enable_assoc : Option Nat := none
  enable_dict_correction : Option Nat := none
  penalty_non_dict_word : Option ℚ := none
  penalty_non_freq_dict_word : Option ℚ := none
  preserve_interword_spaces : Option Nat := none
  enable_bigram_correction : Option Nat := none
  tosp_threshold_bias2 : Option ℚ := none
  pageseg_mode : Option Nat := none
  chop_enable : Option Nat := none
  use_new_state_cost : Option Nat := none
  segment_segcost_rating : Option Nat := none
  deriving DecidableEq

/-- Config string of `extract_text_fast` (lines 34-43 of the source). -/
def fastConfig : TessConfig :=
  { oem := 3
    psm := 6
    char_blacklist := some [Char.ofNat 0xa9, Char.ofNat 0xae, Char.ofNat 0x2122]
    do_invert := some 0
    load_system_dawg := some 1
    load_freq_dawg := some 1
    pageseg_mode := some 6
    preserve_interword_spaces := some 1 }

/-- Config string of `extract_text_accurate` (lines 67-85 of the source). -/
def accurateConfig : TessConfig :=
  { oem := 3
    psm := 3
    char_blacklist :=
      some [Char.ofNat 0xa9, Char.ofNat 0xae, Char.ofNat 0x2122,
            Char.ofNat 0xa7, Char.ofNat 0xb6]
    load_system_dawg := some 1
    load_freq_dawg := some 1
    load_punc_dawg := some 1
    load_number_dawg := some 1
    load_unambig_dawg := some 1
    load_bigram_dawg := some 1
    load_fixed_length_dawgs := some 1
    wordrec_enable_assoc := some 1
    enable_dict_correction := some 1
    penalty_non_dict_word := some (1/2)
    penalty_non_freq_dict_word := some (3/10)
    preserve_interword_spaces := some 1
    enable_bigram_correction := some 1
    tosp_threshold_bias2 := some 1 }

/-- Config string of `extract_text_with_confidence` (lines 106-110). -/
def confidenceConfig : TessConfig :=
  { oem := 3
    psm := 3
    preserve_interword_spaces := some 1 }

/-- Config string of `extract_code` (lines 175-186 of the source). -/
def codeConfig : TessConfig :=
  { oem := 3
    psm := 4
    preserve_interword_spaces := some 1
    load_system_dawg := some 0
    load_freq_dawg := some 0
    char_blacklist := some []
    chop_enable := some 1
    use_new_state_cost := some 1
    segment_segcost_rating := some 1
    tosp_threshold_bias2 := some 0 }

/-! ### The external engine and its failure mode -/

/-- One row of the Tesseract TSV output as surfaced by
`pytesseract.image_to_data(..., output_type=Output.DICT)`: the parallel
entries of `data` at one index. -/
structure TessRow where
  text : List Char
  conf : ℤ
  left : ℤ
  top : ℤ
  width : ℤ
  height : ℤ
  deriving DecidableEq

/-- A grayscale pixel buffer (numpy `uint8` array of shape `h x w`). -/
structure Img where
  w : Nat
  h : Nat
  px : Nat → Nat → Nat

/-- The external Tesseract engine as seen through `pytesseract`: whether the
binary is installed, and the text / TSV data it would produce for a given
image and config when it is. -/
structure EngineEnv where
  available : Bool
  stringOut : Img → TessConfig → List Char
  dataOut : Img → TessConfig → List TessRow

/-- Error kinds surfaced by the pipeline. -/
inductive OCRError where
  | engineUnavailable : List Char → OCRError
  | unsupportedMode : List Char → OCRError
  deriving DecidableEq

/-- The diagnostic message `pytesseract` attaches to its not-found error. -/
def tessNotFoundMsg : List Char :=
  "tesseract is not installed or it is not in your PATH".toList

/-- One `pytesseract.image_to_string` call: raises (here: returns the error)
when the engine binary is unavailable, and bumps the engine-call counter
either way. -/
def tessCallString (env : EngineEnv) (img : Img) (cfg : TessConfig) (n : Nat) :
    Except OCRError (List Char) × Nat :=
  (if env.available then .ok (env.stringOut img cfg)
   else .error (.engineUnavailable tessNotFoundMsg), n + 1)

/-- One `pytesseract.image_to_data` call, counted like `tessCallString`. -/
def tessCallData (env : EngineEnv) (img : Img) (cfg : TessConfig) (n : Nat) :
    Except OCRError (List TessRow) × Nat :=
  (if env.available then .ok (env.dataOut img cfg)
   else .error (.engineUnavailable tessNotFoundMsg), n + 1)

/-! ### The recognizer operations (`backend/ocr_engine.py.backup`) -/

/-- `extract_text_fast` (source lines 12-48): one engine call with
`fastConfig`, result stripped on both ends. -/
def extract_text_fast (env : EngineEnv) (img : Img) (n : Nat) :
    Except OCRError (List Char) × Nat :=
  let r := tessCallString env img fastConfig n
  (r.1.map pyStrip, r.2)

/-- `extract_text_accurate` (source lines 51-90): one engine call with
`accurateConfig`, result stripped on both ends. -/
def extract_text_accurate (env : EngineEnv) (img : Img) (n : Nat) :
    Except OCRError (List Char) × Nat :=
  let r := tessCallString env img accurateConfig n
  (r.1.map pyStrip, r.2)

/-- `extract_code` (source lines 161-191): one engine call with `codeConfig`,
only trailing whitespace removed from the result. -/
def extract_code (env : EngineEnv) (img : Img) (n : Nat) :
    Except OCRError (List Char) × Nat :=
  let r := tessCallString env img codeConfig n
  (r.1.map pyRstrip, r.2)

/-! ### `extract_text_with_confidence` (source lines 93-158) -/

/-- The per-word bounding box dictionary built at source lines 129-134. -/
structure Box where
  x : ℤ
  y : ℤ
  width : ℤ
  height : ℤ
  deriving DecidableEq

/-- One kept word dictionary (source lines 126-135). -/
structure Token where
  text : List Char
  confidence : ℤ
  box : Box
  deriving DecidableEq

/-- The `quality_metrics` dictionary (source lines 153-157). -/
structure QualityMetrics where
  high_confidence_words : Nat
  medium_confidence_words : Nat
  low_confidence_words : Nat
  deriving DecidableEq

/-- The result dictionary of `extract_text_with_confidence`
(source lines 148-158). -/
structure ConfResult where
  text : List Char
  confidence : ℚ
  words : List Token
  word_count : Nat
  quality_metrics : QualityMetrics
  deriving DecidableEq

/-- The loop body at source lines 121-135: keep a row when
`conf > 50 and text` (text stripped), building the word dictionary. -/
def rowToken (r : TessRow) : Option Token :=
  if 50 < r.conf ∧ pyStrip r.text ≠ [] then
    some { text := pyStrip r.text, confidence := r.conf,
           box := { x := r.left, y := r.top, width := r.width, height := r.height } }
  else none

/-- Source lines 119-158: filter rows, join the kept texts with single
spaces, average the kept confidences (`round(avg, 2)`), and count the three
quality buckets. -/
def tessDataToResult (data : List TessRow) : ConfResult :=
  let words := data.filterMap rowToken
  let full_text := pyJoin [' '] (words.map Token.text)
  let avg_conf : ℚ :=
    if words = [] then 0
    else ((words.map Token.confidence).sum : ℚ) / (words.length : ℚ)
  { text := full_text
    confidence := pyRound2 avg_conf
    words := words
    word_count := words.length
    quality_metrics :=
      { high_confidence_words :=
          (words.filter (fun w => decide (80 < w.confidence))).length
        medium_confidence_words :=
          (words.filter (fun w => decide (60 < w.confidence ∧ w.confidence ≤ 80))).length
        low_confidence_words :=
          (words.filter (fun w => decide (w.confidence ≤ 60))).length } }

/-- `extract_text_with_confidence` (source lines 93-158): one
`image_to_data` call with `confidenceConfig`, then the pure processing of
the returned rows. -/
def extract_text_with_confidence (env : EngineEnv) (img : Img) (n : Nat) :
    Except OCRError ConfResult × Nat :=
  let r := tessCallData env img confidenceConfig n
  (r.1.map tessDataToResult, r.2)

/-! ### The fast preprocessing pipeline (`preprocess_image_fast`)

Source: the backend `preprocessor.py` code embedded in `extension/popup.js`
(lines 1375-1399): `cv2.imdecode(..., IMREAD_GRAYSCALE)`, then
`cv2.threshold(img, 0, 255, THRESH_BINARY + THRESH_OTSU)`, then
`cv2.filter2D` with the fixed kernel `[[-1,-1,-1],[-1,9,-1],[-1,-1,-1]]`.
The codec is external, so decoding is an abstract parameter; the OpenCV
threshold and filter are embedded following their documented semantics. -/

/-- `saturate_cast<uchar>` on an exact integer value. -/
def clamp255 (v : ℤ) : Nat :=
  if v < 0 then 0 else if 255 < v then 255 else v.toNat

/-- OpenCV `borderInterpolate` with `BORDER_REFLECT_101` (the `filter2D`
default), for offsets reaching at most one pixel outside the buffer. -/
def reflect101 (n : Nat) (i : ℤ) : Nat :=
  if n ≤ 1 then 0
  else if i < 0 then (-i).toNat
  else if (n : ℤ) ≤ i then (2 * (n : ℤ) - 2 - i).toNat
  else i.toNat

/-- `cv2.threshold(img, 0, 255, THRESH_BINARY)` at threshold `t`:
pixels strictly above `t` go to 255, the rest to 0. -/
def thresholdBinary (t : Nat) (img : Img) : Img :=
  { w := img.w, h := img.h, px := fun x y => if t < img.px x y then 255 else 0 }

/-- `cv2.filter2D(img, -1, [[-1,-1,-1],[-1,9,-1],[-1,-1,-1]])`:
correlation with the fixed sharpening kernel, reflected borders, saturated
to `uint8`. -/
def sharpen (img : Img) : Img :=
  { w := img.w, h := img.h
    px := fun x y =>
      let g : ℤ → ℤ → ℤ := fun ix iy =>
        (img.px (reflect101 img.w ix) (reflect101 img.h iy) : ℤ)
      clamp255 (9 * g x y -
        (g (x - 1) (y - 1) + g x (y - 1) + g (x + 1) (y - 1) +
         g (x - 1) y + g (x + 1) y +
         g (x - 1) (y + 1) + g x (y + 1) + g (x + 1) (y + 1))) }

/-- The 256-bin intensity histogram of a buffer. -/
def histOf (img : Img) : Nat → Nat := fun v =>
  ∑ x ∈ Finset.range img.w, ∑ y ∈ Finset.range img.h,
    if img.px x y = v then 1 else 0

/-! #### Otsu's threshold selection

`THRESH_OTSU` is computed by OpenCV's `getThreshVal_Otsu_8u`: scan the 256
candidate thresholds in order, skip those for which one class is empty, and
keep the first candidate strictly maximizing the between-class variance
`q1*q2*(mu1-mu2)^2`. -/

/-- Pixels with intensity at most `t` (class-1 population). -/
def cumN (hst : Nat → Nat) (t : Nat) : Nat := ∑ v ∈ Finset.range (t + 1), hst v

/-- Sum of intensities over class 1. -/
def cumS (hst : Nat → Nat) (t : Nat) : Nat := ∑ v ∈ Finset.range (t + 1), v * hst v

/-- Sum of squared intensities over class 1. -/
def cumSS (hst : Nat → Nat) (t : Nat) : Nat :=
  ∑ v ∈ Finset.range (t + 1), v * v * hst v

/-- Total pixel count (class 1 at the last bin). -/
def totN (hst : Nat → Nat) : Nat := cumN hst 255

/-- Total intensity sum. -/
def totS (hst : Nat → Nat) : Nat := cumS hst 255

/-- Total squared-intensity sum. -/
def totSS (hst : Nat → Nat) : Nat := cumSS hst 255

/-- Weight of class 1 at threshold `t`. -/
def q1 (hst : Nat → Nat) (t : Nat) : ℚ := (cumN hst t : ℚ) / (totN hst : ℚ)

/-- Mean of class 1 at threshold `t`. -/
def mu1 (hst : Nat → Nat) (t : Nat) : ℚ := (cumS hst t : ℚ) / (cumN hst t : ℚ)

/-- Mean of class 2 at threshold `t`. -/
def mu2 (hst : Nat → Nat) (t : Nat) : ℚ :=
  ((totS hst : ℚ) - (cumS hst t : ℚ)) / ((totN hst : ℚ) - (cumN hst t : ℚ))

/-- Between-class variance, the quantity OpenCV maximizes. -/
def sigmaB (hst : Nat → Nat) (t : Nat) : ℚ :=
  q1 hst t * (1 - q1 hst t) * (mu1 hst t - mu2 hst t) ^ 2

/-- Variance of class 1 at threshold `t`. -/
def var1 (hst : Nat → Nat) (t : Nat) : ℚ :=
  (cumSS hst t : ℚ) / (cumN hst t : ℚ) - mu1 hst t ^ 2

/-- Variance of class 2 at threshold `t`. -/
def var2 (hst : Nat → Nat) (t : Nat) : ℚ :=
  ((totSS hst : ℚ) - (cumSS hst t : ℚ)) / ((totN hst : ℚ) - (cumN hst t : ℚ)) -
    mu2 hst t ^ 2

/-- Intra-class (within-class) variance, the quantity the spec asks to
minimize. -/
def intraVar (hst : Nat → Nat) (t : Nat) : ℚ :=
  q1 hst t * var1 hst t + (1 - q1 hst t) * var2 hst t

/-- Total pixel-intensity variance of the buffer. -/
def totalVar (hst : Nat → Nat) : ℚ :=
  (totSS hst : ℚ) / (totN hst : ℚ) - ((totS hst : ℚ) / (totN hst : ℚ)) ^ 2

/-- One step of OpenCV's scan: update on a strictly larger between-class
variance, skipping thresholds with an empty class. -/
def otsuStep (hst : Nat → Nat) (st : Nat × ℚ) (t : Nat) : Nat × ℚ :=
  if 0 < cumN hst t ∧ cumN hst t < totN hst ∧ st.2 < sigmaB hst t
  then (t, sigmaB hst t) else st

/-- OpenCV's Otsu threshold: first maximizer of the between-class variance
(0 when every candidate has an empty class). -/
def otsuThreshold (hst : Nat → Nat) : Nat :=
  ((List.range 256).foldl (otsuStep hst) (0, -1)).1

/-- `preprocess_image_fast`: decode to grayscale (external codec `decode`),
Otsu-binarize, sharpen.  One pass per stage. -/
def preprocess_image_fast (decode : List Nat → Img) (image_bytes : List Nat) : Img :=
  let img := decode image_bytes
  sharpen (thresholdBinary (otsuThreshold (histOf img)) img)

/-- Modelled from the spec: one step of threshold selection by intra-class
variance minimization — update on a strictly smaller intra-class variance,
skipping thresholds with an empty class (`none` marks that no valid
candidate has been seen yet). -/
def specOtsuStep (hst : Nat → Nat) (st : Nat × Option ℚ) (t : Nat) : Nat × Option ℚ :=
  if 0 < cumN hst t ∧ cumN hst t < totN hst then
    match st.2 with
    | none => (t, some (intraVar hst t))
    | some m => if intraVar hst t < m then (t, some (intraVar hst t)) else st
  else st

/-- Modelled from the spec: "binarize using a global automatic threshold
(e.g., Otsu's method: choose the threshold that minimizes intra-class
pixel-intensity variance)" — the first minimizer of the intra-class
variance over the candidate thresholds. -/
def specOtsuThreshold (hst : Nat → Nat) : Nat :=
  ((List.range 256).foldl (specOtsuStep hst) (0, none)).1

/-- Modelled from the spec: `prepare_fast(bytes)` = decode → grayscale →
binarize at the intra-class-variance-minimizing threshold → fixed 3x3
sharpening convolution, a single pass per stage. -/
def prepare_fast_spec (decode : List Nat → Img) (image_bytes : List Nat) : Img :=
  let img := decode image_bytes
  sharpen (thresholdBinary (specOtsuThreshold (histOf img)) img)

/-- The staged pipeline of `preprocess_image_fast` as a relation between
input bytes and output buffer: one thresholding stage at the Otsu threshold
followed by one sharpening stage. -/
def PrepareFastRel (decode : List Nat → Img) (image_bytes : List Nat) (out : Img) : Prop :=
  ∃ dec thr : Img, dec = decode image_bytes ∧
    thr = thresholdBinary (otsuThreshold (histOf dec)) dec ∧
    out = sharpen thr

/-! ### Mode dispatch (modelled from the spec) -/

/-- Stages of work done while serving one request. -/
inductive PipelineStage where
  | preprocessStage
  | recognizeStage
  deriving DecidableEq

/-- A successfully served request: plain text, or text with confidence. -/
inductive DispatchOutput where
  | plain : List Char → DispatchOutput
  | withConfidence : ConfResult → DispatchOutput
  deriving DecidableEq

/-- The mode enumeration of the spec's configuration surface. -/
def supportedModes : List (List Char) :=
  ["fast".toList, "accurate".toList, "code".toList, "confidence".toList]

/-- Modelled from the spec: the request-handling layer (`main.py`) that maps
a mode string to a preprocessor/recognizer pair is not under `src/` (only
planning prose describes it), so it is modelled from the spec's words:
"caller supplies raw image bytes + a mode selector", "passing an
unrecognized mode string signals `UnsupportedModeError` and performs no
partial processing".  `prepQuality` abstracts the quality preprocessor used
by the non-fast modes; the trace records which pipeline stages ran. -/
def dispatch_request (mode : List Char) (decode prepQuality : List Nat → Img)
    (env : EngineEnv) (image_bytes : List Nat) (n : Nat) :
    (Except OCRError DispatchOutput × Nat) × List PipelineStage :=
  if mode = "fast".toList then
    let img := preprocess_image_fast decode image_bytes
    let r := extract_text_fast env img n
    ((r.1.map .plain, r.2), [.preprocessStage, .recognizeStage])
  else if mode = "accurate".toList then
    let img := prepQuality image_bytes
    let r := extract_text_accurate env img n
    ((r.1.map .plain, r.2), [.preprocessStage, .recognizeStage])
  else if mode = "code".toList then
    let img := prepQuality image_bytes
    let r := extract_code env img n
    ((r.1.map .plain, r.2), [.preprocessStage, .recognizeStage])
  else if mode = "confidence".toList then
    let img := prepQuality image_bytes
    let r := extract_text_with_confidence env img n
    ((r.1.map .withConfidence, r.2), [.preprocessStage, .recognizeStage])
  else
    ((.error (.unsupportedMode ("unsupported mode: ".toList ++ mode)), n), [])

/-! ### Lemmas on the string primitives -/

lemma dropWhile_head_not {p : Char → Bool} {l : List Char} {c : Char}
    (h : (l.dropWhile p).head? = some c) : p c = false := by
  induction l with
  | nil => simp at h
  | cons a t ih =>
    by_cases hp : p a
    · simpa [List.dropWhile_cons, hp] using ih (by simpa [List.dropWhile_cons, hp] using h)
    · simp [List.dropWhile_cons, hp] at h
      simpa [← h] using hp

lemma dropWhile_eq_self_of_head {p : Char → Bool} {l : List Char}
    (h : ∀ c, l.head? = some c → p c = false) : l.dropWhile p = l := by
  cases l with
  | nil => rfl
  | cons a t => simp [List.dropWhile_cons, h a rfl]

lemma pyLstrip_head {l : List Char} {c : Char}
    (h : (pyLstrip l).head? = some c) : pyIsSpace c = false :=
  dropWhile_head_not h

lemma pyRstrip_getLast {l : List Char} {c : Char}
    (h : (pyRstrip l).getLast? = some c) : pyIsSpace c = false := by
  unfold pyRstrip at h
  rw [List.getLast?_reverse] at h
  exact dropWhile_head_not h

/-- `rstrip` decomposition: the input is the result followed by a run of
whitespace. -/
lemma pyRstrip_append (l : List Char) :
    l = pyRstrip l ++ (l.reverse.takeWhile pyIsSpace).reverse := by
  calc l = l.reverse.reverse := (List.reverse_reverse l).symm
    _ = (l.reverse.takeWhile pyIsSpace ++ l.reverse.dropWhile pyIsSpace).reverse := by
        rw [List.takeWhile_append_dropWhile]
    _ = pyRstrip l ++ (l.reverse.takeWhile pyIsSpace).reverse := by
        rw [List.reverse_append]; rfl

lemma mem_takeWhile_space {l : List Char} {c : Char}
    (h : c ∈ (l.reverse.takeWhile pyIsSpace).reverse) : pyIsSpace c = true := by
  rw [List.mem_reverse] at h
  exact List.mem_takeWhile_imp h

lemma pyRstrip_eq_self {l : List Char}
    (h : ∀ c, l.getLast? = some c → pyIsSpace c = false) : pyRstrip l = l := by
  have : l.reverse.dropWhile pyIsSpace = l.reverse := by
    apply dropWhile_eq_self_of_head
    intro c hc
    exact h c (by rwa [← List.head?_reverse])
  simp [pyRstrip, this]

lemma pyLstrip_eq_self {l : List Char}
    (h : ∀ c, l.head? = some c → pyIsSpace c = false) : pyLstrip l = l :=
  dropWhile_eq_self_of_head h

/-- The last element survives `lstrip` whenever the result is nonempty. -/
lemma pyLstrip_getLast {l : List Char} {c : Char}
    (h : (pyLstrip l).getLast? = some c) : l.getLast? = some c := by
  have hd := List.takeWhile_append_dropWhile (p := pyIsSpace) (l := l)
  have hne : l.dropWhile pyIsSpace ≠ [] := by
    intro he
    rw [pyLstrip, he] at h
    simp at h
  calc l.getLast? = (l.takeWhile pyIsSpace ++ l.dropWhile pyIsSpace).getLast? := by
        rw [hd]
    _ = (l.dropWhile pyIsSpace).getLast? := List.getLast?_append_of_ne_nil _ hne
    _ = some c := h

lemma pyStrip_head {l : List Char} {c : Char}
    (h : (pyStrip l).head? = some c) : pyIsSpace c = false :=
  pyLstrip_head h

lemma pyStrip_getLast {l : List Char} {c : Char}
    (h : (pyStrip l).getLast? = some c) : pyIsSpace c = false :=
  pyRstrip_getLast (pyLstrip_getLast h)

/-- `strip` is idempotent. -/
lemma pyStrip_idem (l : List Char) : pyStrip (pyStrip l) = pyStrip l := by
  unfold pyStrip
  rw [pyRstrip_eq_self (l := pyLstrip (pyRstrip l))
    (fun c hc => pyStrip_getLast (l := l) hc)]
  rw [pyLstrip_eq_self (l := pyLstrip (pyRstrip l))
    (fun c hc => pyLstrip_head (l := pyRstrip l) hc)]

/-! ### Lemmas on `pyJoin` -/

lemma pyJoin_ne_nil {sep : List Char} {parts : List (List Char)}
    (hp : parts ≠ []) (hne : ∀ x ∈ parts, x ≠ []) : pyJoin sep parts ≠ [] := by
  match parts with
  | [] => exact absurd rfl hp
  | [x] => exact hne x (by simp)
  | x :: y :: r =>
    have hx : x ≠ [] := hne x (by simp)
    simp [pyJoin, hx]

lemma pyJoin_head {sep : List Char} {parts : List (List Char)}
    (hne : ∀ x ∈ parts, x ≠ []) {c : Char}
    (h : (pyJoin sep parts).head? = some c) : ∃ a ∈ parts, a.head? = some c := by
  match parts with
  | [] => simp [pyJoin] at h
  | [x] => exact ⟨x, by simp, h⟩
  | x :: y :: r =>
    refine ⟨x, by simp, ?_⟩
    have hx : x ≠ [] := hne x (by simp)
    cases x with
    | nil => exact absurd rfl hx
    | cons a t => simpa [pyJoin] using h

lemma pyJoin_getLast {sep : List Char} {parts : List (List Char)}
    (hne : ∀ x ∈ parts, x ≠ []) {c : Char}
    (h : (pyJoin sep parts).getLast? = some c) : ∃ a ∈ parts, a.getLast? = some c := by
  induction parts with
  | nil => simp [pyJoin] at h
  | cons x rest ih =>
    cases rest with
    | nil => exact ⟨x, by simp, h⟩
    | cons y r =>
      have hj : pyJoin sep (y :: r) ≠ [] :=
        pyJoin_ne_nil (by simp) (fun a ha => hne a (by simp [ha]))
      rw [pyJoin, List.append_assoc,
        List.getLast?_append_of_ne_nil _ (by simp [hj]),
        List.getLast?_append_of_ne_nil _ hj] at h
      obtain ⟨a, ha, hc⟩ := ih (fun a ha => hne a (by simp [ha])) h
      exact ⟨a, by simp [ha], hc⟩

/-! ### Lemmas on the kept-word list of `extract_text_with_confidence` -/

lemma tessDataToResult_words (data : List TessRow) :
    (tessDataToResult data).words = data.filterMap rowToken := rfl

lemma tessDataToResult_text (data : List TessRow) :
    (tessDataToResult data).text =
      pyJoin [' '] ((data.filterMap rowToken).map Token.text) := rfl

lemma tessDataToResult_conf (data : List TessRow) :
    (tessDataToResult data).confidence =
      pyRound2 (if data.filterMap rowToken = [] then 0
        else (((data.filterMap rowToken).map Token.confidence).sum : ℚ) /
          ((data.filterMap rowToken).length : ℚ)) := rfl

lemma rowToken_eq_some {r : TessRow} {tok : Token} (h : rowToken r = some tok) :
    50 < r.conf ∧ pyStrip r.text ≠ [] ∧
      tok = { text := pyStrip r.text, confidence := r.conf,
              box := { x := r.left, y := r.top,
                       width := r.width, height := r.height } } := by
  by_cases hc : 50 < r.conf ∧ pyStrip r.text ≠ []
  · rw [rowToken, if_pos hc] at h
    exact ⟨hc.1, hc.2, (Option.some_inj.mp h).symm⟩
  · rw [rowToken, if_neg hc] at h
    exact absurd h (by simp)

lemma mem_words_exists {data : List TessRow} {tok : Token}
    (h : tok ∈ (tessDataToResult data).words) :
    ∃ r ∈ data, rowToken r = some tok := by
  rw [tessDataToResult_words] at h
  exact (List.mem_filterMap.mp h).imp fun r hr => ⟨hr.1, hr.2⟩

lemma mem_words_conf {data : List TessRow} {tok : Token}
    (h : tok ∈ (tessDataToResult data).words) : 50 < tok.confidence := by
  obtain ⟨r, _, hr⟩ := mem_words_exists h
  obtain ⟨hc, _, htok⟩ := rowToken_eq_some hr
  rw [htok]
  exact hc

lemma mem_words_text {data : List TessRow} {tok : Token}
    (h : tok ∈ (tessDataToResult data).words) :
    tok.text ≠ [] ∧ pyStrip tok.text = tok.text := by
  obtain ⟨r, _, hr⟩ := mem_words_exists h
  obtain ⟨_, hne, htok⟩ := rowToken_eq_some hr
  rw [htok]
  exact ⟨hne, pyStrip_idem r.text⟩

/-! ### Concrete inputs used by witnesses and counterexamples -/

/-- A 1x1 buffer. -/
def imgW : Img := { w := 1, h := 1, px := fun _ _ => 0 }

/-- Engine rows whose kept confidences are 51, 51, 52: their mean `154/3`
has no finite decimal expansion. -/
def c1Data : List TessRow :=
  [{ text := "a".toList, conf := 51, left := 0, top := 0, width := 1, height := 1 },
   { text := "b".toList, conf := 51, left := 0, top := 0, width := 1, height := 1 },
   { text := "c".toList, conf := 52, left := 0, top := 0, width := 1, height := 1 }]

/-- An engine environment whose TSV output is `c1Data`. -/
def c1Env : EngineEnv :=
  { available := true, stringOut := fun _ _ => [], dataOut := fun _ _ => c1Data }

/-- Claim C1 fails as stated: on the engine rows `c1Data` every token is
kept, the arithmetic mean of the kept confidences is `154/3`, yet the
reported `confidence` is the rounded value `51.33`. -/
theorem claim_C1_counterexample :
    (extract_text_with_confidence c1Env imgW 0).1 =
      Except.ok (tessDataToResult c1Data) ∧
    ((tessDataToResult c1Data).words.map Token.confidence).sum = 154 ∧
    (tessDataToResult c1Data).words.length = 3 ∧
    (tessDataToResult c1Data).confidence = 5133 / 100 ∧
    (tessDataToResult c1Data).confidence ≠ (154 : ℚ) / 3 := by
  have hconf : (tessDataToResult c1Data).confidence = 5133 / 100 := by
    rw [tessDataToResult_conf, if_neg (by decide),
      show ((c1Data.filterMap rowToken).map Token.confidence).sum = 154 from by decide,
      show (c1Data.filterMap rowToken).length = 3 from by decide]
    unfold pyRound2 roundHalfEven
    norm_num
  exact ⟨rfl, by decide, by decide, hconf, by rw [hconf]; norm_num⟩

/-- Claim C1 (amended): `extract_text_with_confidence` never returns a token
with confidence < 50; the reported `confidence` is the arithmetic mean of
the kept tokens' confidences **rounded to two decimal places** (0 if no
tokens are kept); and the quality histogram counts kept tokens with
confidence > 80 (high), in 61..80 (medium), and <= 60 (low). -/
theorem claim_C1 (data : List TessRow) :
    (∀ tok ∈ (tessDataToResult data).words, ¬ tok.confidence < 50) ∧
    ((tessDataToResult data).words = [] → (tessDataToResult data).confidence = 0) ∧
    ((tessDataToResult data).words ≠ [] →
      (tessDataToResult data).confidence =
        pyRound2 ((((tessDataToResult data).words.map Token.confidence).sum : ℚ) /
          ((tessDataToResult data).words.length : ℚ))) ∧
    (tessDataToResult data).quality_metrics.high_confidence_words =
      ((tessDataToResult data).words.filter
        (fun w => decide (80 < w.confidence))).length ∧
    (tessDataToResult data).quality_metrics.medium_confidence_words =
      ((tessDataToResult data).words.filter
        (fun w => decide (61 ≤ w.confidence ∧ w.confidence ≤ 80))).length ∧
    (tessDataToResult data).quality_metrics.low_confidence_words =
      ((tessDataToResult data).words.filter
        (fun w => decide (w.confidence ≤ 60))).length := by
  refine ⟨?_, ?_, ?_, rfl, ?_, rfl⟩
  · intro tok htok
    have := mem_words_conf htok
    omega
  · intro hnil
    rw [tessDataToResult_conf, if_pos (by rwa [tessDataToResult_words] at hnil)]
    unfold pyRound2 roundHalfEven
    norm_num
  · intro hne
    rw [tessDataToResult_conf, if_neg (by rwa [tessDataToResult_words] at hne),
      tessDataToResult_words]
  · show ((data.filterMap rowToken).filter
        (fun w => decide (60 < w.confidence ∧ w.confidence ≤ 80))).length =
      ((tessDataToResult data).words.filter
        (fun w => decide (61 ≤ w.confidence ∧ w.confidence ≤ 80))).length
    rw [tessDataToResult_words]
    congr 1

/-- Witness for C1 at `c1Data`: the kept-word list is nonempty and the
reported confidence is the rounded mean. -/
theorem claim_C1_witness :
    (tessDataToResult c1Data).words ≠ [] ∧
    (tessDataToResult c1Data).confidence =
      pyRound2 ((((tessDataToResult c1Data).words.map Token.confidence).sum : ℚ) /
        ((tessDataToResult c1Data).words.length : ℚ)) :=
  ⟨by decide, (claim_C1 c1Data).2.2.1 (by decide)⟩

/-- Claim C2: assuming the engine rows respect Tesseract's documented output
contract (confidence at most 100, boxes non-negative and inside the image),
every token returned by `extract_text_with_confidence` has an integer
confidence in [0,100] (the filter even forces it above 50) and a
non-negative bounding box inside the image. -/
theorem claim_C2 (w h : ℤ) (data : List TessRow)
    (hcontract : ∀ r ∈ data, r.conf ≤ 100 ∧ 0 ≤ r.left ∧ 0 ≤ r.top ∧
      0 ≤ r.width ∧ 0 ≤ r.height ∧ r.left + r.width ≤ w ∧ r.top + r.height ≤ h) :
    ∀ tok ∈ (tessDataToResult data).words,
      0 ≤ tok.confidence ∧ tok.confidence ≤ 100 ∧
      0 ≤ tok.box.x ∧ 0 ≤ tok.box.y ∧ 0 ≤ tok.box.width ∧ 0 ≤ tok.box.height ∧
      tok.box.x + tok.box.width ≤ w ∧ tok.box.y + tok.box.height ≤ h := by
  intro tok htok
  obtain ⟨r, hr, hsome⟩ := mem_words_exists htok
  obtain ⟨hconf, _, htokeq⟩ := rowToken_eq_some hsome
  obtain ⟨h100, hl, ht, hw, hh, hxw, hyh⟩ := hcontract r hr
  rw [htokeq]
  dsimp only
  refine ⟨by omega, h100, hl, ht, hw, hh, hxw, hyh⟩

/-- A single well-formed engine row inside a 20x10 image. -/
def c2Data : List TessRow :=
  [{ text := "hello".toList, conf := 91, left := 2, top := 3, width := 10, height := 5 }]

/-- Witness for C2: the contract hypothesis holds for `c2Data` in a 20x10
image, and the conclusion follows for its one kept token. -/
theorem claim_C2_witness :
    (∀ r ∈ c2Data, r.conf ≤ 100 ∧ 0 ≤ r.left ∧ 0 ≤ r.top ∧
      0 ≤ r.width ∧ 0 ≤ r.height ∧ r.left + r.width ≤ 20 ∧ r.top + r.height ≤ 10) ∧
    (∀ tok ∈ (tessDataToResult c2Data).words,
      0 ≤ tok.confidence ∧ tok.confidence ≤ 100 ∧
      0 ≤ tok.box.x ∧ 0 ≤ tok.box.y ∧ 0 ≤ tok.box.width ∧ 0 ≤ tok.box.height ∧
      tok.box.x + tok.box.width ≤ 20 ∧ tok.box.y + tok.box.height ≤ 10) :=
  ⟨by decide, claim_C2 20 10 c2Data (by decide)⟩

/-- Claim C10: the `text` field of `extract_text_with_confidence` is exactly
the kept tokens' texts joined by single spaces in engine order; every kept
token text is non-empty and stripped; hence the combined text neither
starts nor ends with whitespace. -/
theorem claim_C10 (data : List TessRow) :
    (tessDataToResult data).text =
      pyJoin [' '] ((tessDataToResult data).words.map Token.text) ∧
    (∀ tok ∈ (tessDataToResult data).words,
      tok.text ≠ [] ∧ pyStrip tok.text = tok.text) ∧
    (∀ c, (tessDataToResult data).text.head? = some c → pyIsSpace c = false) ∧
    (∀ c, (tessDataToResult data).text.getLast? = some c → pyIsSpace c = false) := by
  have hne : ∀ a ∈ (tessDataToResult data).words.map Token.text, a ≠ [] := by
    intro a ha
    obtain ⟨tok, htok, rfl⟩ := List.mem_map.mp ha
    exact (mem_words_text htok).1
  have hstripped : ∀ a ∈ (tessDataToResult data).words.map Token.text,
      pyStrip a = a := by
    intro a ha
    obtain ⟨tok, htok, rfl⟩ := List.mem_map.mp ha
    exact (mem_words_text htok).2
  refine ⟨rfl, fun tok htok => mem_words_text htok, ?_, ?_⟩
  · intro c hc
    rw [show (tessDataToResult data).text =
      pyJoin [' '] ((tessDataToResult data).words.map Token.text) from rfl] at hc
    obtain ⟨a, ha, hhead⟩ := pyJoin_head hne hc
    exact pyStrip_head (by rwa [hstripped a ha])
  · intro c hc
    rw [show (tessDataToResult data).text =
      pyJoin [' '] ((tessDataToResult data).words.map Token.text) from rfl] at hc
    obtain ⟨a, ha, hlast⟩ := pyJoin_getLast hne hc
    exact pyStrip_getLast (by rwa [hstripped a ha])

/-- Engine rows whose raw texts carry surrounding whitespace. -/
def c10Data : List TessRow :=
  [{ text := "  hi ".toList, conf := 95, left := 0, top := 0, width := 4, height := 2 },
   { text := "yo".toList, conf := 77, left := 5, top := 0, width := 3, height := 2 }]

/-- Witness for C10 at `c10Data`: the joined text starts with a
non-whitespace character. -/
theorem claim_C10_witness :
    (tessDataToResult c10Data).text.head? = some 'h' ∧ pyIsSpace 'h' = false :=
  ⟨by decide, (claim_C10 c10Data).2.2.1 'h' (by decide)⟩

/-- Claim C3: `extract_code` invokes the engine with single-column
segmentation (PSM 4), `load_system_dawg` and `load_freq_dawg` disabled,
`preserve_interword_spaces` on, and an empty character blacklist, and
returns the recognized text with only trailing whitespace stripped: the
result is a literal leading segment of the engine text, the removed suffix
is all whitespace, and the result does not end in whitespace. -/
theorem claim_C3 (env : EngineEnv) (img : Img) (n : Nat)
    (hav : env.available = true) :
    codeConfig.psm = 4 ∧
    codeConfig.load_system_dawg = some 0 ∧
    codeConfig.load_freq_dawg = some 0 ∧
    codeConfig.preserve_interword_spaces = some 1 ∧
    codeConfig.char_blacklist = some [] ∧
    extract_code env img n =
      (.ok (pyRstrip (env.stringOut img codeConfig)), n + 1) ∧
    env.stringOut img codeConfig =
      pyRstrip (env.stringOut img codeConfig) ++
        ((env.stringOut img codeConfig).reverse.takeWhile pyIsSpace).reverse ∧
    (∀ c ∈ ((env.stringOut img codeConfig).reverse.takeWhile pyIsSpace).reverse,
      pyIsSpace c = true) ∧
    (∀ c, (pyRstrip (env.stringOut img codeConfig)).getLast? = some c →
      pyIsSpace c = false) := by
  refine ⟨rfl, rfl, rfl, rfl, rfl, ?_, pyRstrip_append _,
    fun c hc => mem_takeWhile_space hc, fun c hc => pyRstrip_getLast hc⟩
  simp [extract_code, tessCallString, hav, Except.map]

/-- An engine whose recognized text has leading, internal and trailing
whitespace. -/
def c3Env : EngineEnv :=
  { available := true, stringOut := fun _ _ => "  a   b  ".toList,
    dataOut := fun _ _ => [] }

/-- Witness for C3: on the text with three internal spaces, `extract_code`
keeps the leading and internal spacing and drops only the trailing run. -/
theorem claim_C3_witness :
    extract_code c3Env imgW 0 =
      (.ok (pyRstrip (c3Env.stringOut imgW codeConfig)), 0 + 1) ∧
    pyRstrip (c3Env.stringOut imgW codeConfig) = "  a   b".toList :=
  ⟨(claim_C3 c3Env imgW 0 rfl).2.2.2.2.2.1, by decide⟩

/-- Claim C7: `extract_text_fast` invokes the engine with OEM 3 (legacy +
LSTM combined), PSM 6 (assume uniform text block), inter-word spacing
preserved, system and frequency dictionaries enabled, and the noise
blacklist (copyright, registered, trademark signs), and returns the
recognized text trimmed of leading and trailing whitespace. -/
theorem claim_C7 (env : EngineEnv) (img : Img) (n : Nat)
    (hav : env.available = true) :
    fastConfig.oem = 3 ∧
    fastConfig.psm = 6 ∧
    fastConfig.preserve_interword_spaces = some 1 ∧
    fastConfig.load_system_dawg = some 1 ∧
    fastConfig.load_freq_dawg = some 1 ∧
    fastConfig.char_blacklist =
      some [Char.ofNat 0xa9, Char.ofNat 0xae, Char.ofNat 0x2122] ∧
    extract_text_fast env img n =
      (.ok (pyStrip (env.stringOut img fastConfig)), n + 1) ∧
    (∀ c, (pyStrip (env.stringOut img fastConfig)).head? = some c →
      pyIsSpace c = false) ∧
    (∀ c, (pyStrip (env.stringOut img fastConfig)).getLast? = some c →
      pyIsSpace c = false) := by
  refine ⟨rfl, rfl, rfl, rfl, rfl, rfl, ?_,
    fun c hc => pyStrip_head hc, fun c hc => pyStrip_getLast hc⟩
  simp [extract_text_fast, tessCallString, hav, Except.map]

/-- Witness for C7: on the same spaced text, `extract_text_fast` trims both
ends. -/
theorem claim_C7_witness :
    extract_text_fast c3Env imgW 0 =
      (.ok (pyStrip (c3Env.stringOut imgW fastConfig)), 0 + 1) ∧
    pyStrip (c3Env.stringOut imgW fastConfig) = "a   b".toList :=
  ⟨(claim_C7 c3Env imgW 0 rfl).2.2.2.2.2.2.1, by decide⟩

/-- Claim C4: when the engine binary is unavailable, each of the four
recognizer operations returns the engine-unavailable error with its
(non-empty) diagnostic message after exactly one engine invocation, with no
retry inside the pipeline. -/
theorem claim_C4 (env : EngineEnv) (img : Img) (n : Nat)
    (hna : env.available = false) :
    tessNotFoundMsg ≠ [] ∧
    extract_text_fast env img n =
      (.error (.engineUnavailable tessNotFoundMsg), n + 1) ∧
    extract_text_accurate env img n =
      (.error (.engineUnavailable tessNotFoundMsg), n + 1) ∧
    extract_code env img n =
      (.error (.engineUnavailable tessNotFoundMsg), n + 1) ∧
    extract_text_with_confidence env img n =
      (.error (.engineUnavailable tessNotFoundMsg), n + 1) := by
  refine ⟨by decide, ?_, ?_, ?_, ?_⟩ <;>
    simp [extract_text_fast, extract_text_accurate, extract_code,
      extract_text_with_confidence, tessCallString, tessCallData, hna, Except.map]

/-- An environment with no engine installed. -/
def badEnv : EngineEnv :=
  { available := false, stringOut := fun _ _ => [], dataOut := fun _ _ => [] }

/-- Witness for C4 on `badEnv`. -/
theorem claim_C4_witness :
    badEnv.available = false ∧
    (tessNotFoundMsg ≠ [] ∧
     extract_text_fast badEnv imgW 0 =
       (.error (.engineUnavailable tessNotFoundMsg), 0 + 1) ∧
     extract_text_accurate badEnv imgW 0 =
       (.error (.engineUnavailable tessNotFoundMsg), 0 + 1) ∧
     extract_code badEnv imgW 0 =
       (.error (.engineUnavailable tessNotFoundMsg), 0 + 1) ∧
     extract_text_with_confidence badEnv imgW 0 =
       (.error (.engineUnavailable tessNotFoundMsg), 0 + 1)) :=
  ⟨rfl, claim_C4 badEnv imgW 0 rfl⟩

/-- Claim C9 (modelled from the spec): a mode string outside the
enumeration is answered with the unsupported-mode error, with the engine
call counter unchanged and an empty stage trace — no preprocessing and no
recognition work happens. -/
theorem claim_C9 (mode : List Char) (decode prepQuality : List Nat → Img)
    (env : EngineEnv) (image_bytes : List Nat) (n : Nat)
    (hmode : mode ∉ supportedModes) :
    dispatch_request mode decode prepQuality env image_bytes n =
      ((.error (.unsupportedMode ("unsupported mode: ".toList ++ mode)), n),
        ([] : List PipelineStage)) := by
  have h1 : mode ≠ "fast".toList := fun h => hmode (by simp [supportedModes, h])
  have h2 : mode ≠ "accurate".toList := fun h => hmode (by simp [supportedModes, h])
  have h3 : mode ≠ "code".toList := fun h => hmode (by simp [supportedModes, h])
  have h4 : mode ≠ "confidence".toList := fun h => hmode (by simp [supportedModes, h])
  unfold dispatch_request
  rw [if_neg h1, if_neg h2, if_neg h3, if_neg h4]

/-- Witness for C9 at the mode string "bogus". -/
theorem claim_C9_witness :
    "bogus".toList ∉ supportedModes ∧
    dispatch_request "bogus".toList (fun _ => imgW) (fun _ => imgW) badEnv [] 0 =
      ((.error (.unsupportedMode ("unsupported mode: ".toList ++ "bogus".toList)), 0),
        ([] : List PipelineStage)) :=
  ⟨by decide, claim_C9 "bogus".toList (fun _ => imgW) (fun _ => imgW) badEnv [] 0
    (by decide)⟩

/-! ### Binarity of the fast pipeline -/

lemma thresholdBinary_binary (t : Nat) (img : Img) (x y : Nat) :
    (thresholdBinary t img).px x y = 0 ∨ (thresholdBinary t img).px x y = 255 := by
  unfold thresholdBinary
  dsimp only
  by_cases h : t < img.px x y <;> simp [h]

lemma sharpen_binary {img : Img} (hbin : ∀ a b, img.px a b = 0 ∨ img.px a b = 255)
    (x y : Nat) : (sharpen img).px x y = 0 ∨ (sharpen img).px x y = 255 := by
  have hb : ∀ a b : Nat, (0 : ℤ) ≤ (img.px a b : ℤ) ∧ (img.px a b : ℤ) ≤ 255 := by
    intro a b
    rcases hbin a b with h | h <;> simp [h]
  unfold sharpen clamp255
  dsimp only
  obtain hc := hbin (reflect101 img.w x) (reflect101 img.h y)
  obtain ⟨a1, b1⟩ := hb (reflect101 img.w ((x : ℤ) - 1)) (reflect101 img.h ((y : ℤ) - 1))
  obtain ⟨a2, b2⟩ := hb (reflect101 img.w (x : ℤ)) (reflect101 img.h ((y : ℤ) - 1))
  obtain ⟨a3, b3⟩ := hb (reflect101 img.w ((x : ℤ) + 1)) (reflect101 img.h ((y : ℤ) - 1))
  obtain ⟨a4, b4⟩ := hb (reflect101 img.w ((x : ℤ) - 1)) (reflect101 img.h (y : ℤ))
  obtain ⟨a5, b5⟩ := hb (reflect101 img.w ((x : ℤ) + 1)) (reflect101 img.h (y : ℤ))
  obtain ⟨a6, b6⟩ := hb (reflect101 img.w ((x : ℤ) - 1)) (reflect101 img.h ((y : ℤ) + 1))
  obtain ⟨a7, b7⟩ := hb (reflect101 img.w (x : ℤ)) (reflect101 img.h ((y : ℤ) + 1))
  obtain ⟨a8, b8⟩ := hb (reflect101 img.w ((x : ℤ) + 1)) (reflect101 img.h ((y : ℤ) + 1))
  rcases hc with hc | hc <;> rw [hc] <;> split_ifs <;> omega

/-- Claim C5: every pixel of the buffer produced by `preprocess_image_fast`
is 0 or 255 — the output stays binary through the 3x3 sharpening
convolution applied after Otsu thresholding. -/
theorem claim_C5 (decode : List Nat → Img) (image_bytes : List Nat) (x y : Nat) :
    (preprocess_image_fast decode image_bytes).px x y = 0 ∨
    (preprocess_image_fast decode image_bytes).px x y = 255 := by
  unfold preprocess_image_fast
  exact sharpen_binary (fun a b => thresholdBinary_binary _ _ a b) x y

/-- Claim C8: `preprocess_image_fast` realizes its staged relation, and the
relation is deterministic — two runs on the same byte input produce
identical buffers; no stage involves randomness. -/
theorem claim_C8 (decode : List Nat → Img) (image_bytes : List Nat) :
    PrepareFastRel decode image_bytes (preprocess_image_fast decode image_bytes) ∧
    ∀ o1 o2, PrepareFastRel decode image_bytes o1 →
      PrepareFastRel decode image_bytes o2 → o1 = o2 := by
  constructor
  · exact ⟨decode image_bytes, _, rfl, rfl, rfl⟩
  · intro o1 o2 h1 h2
    obtain ⟨d1, t1, hd1, ht1, ho1⟩ := h1
    obtain ⟨d2, t2, hd2, ht2, ho2⟩ := h2
    subst hd1
    subst hd2
    subst ht1
    subst ht2
    subst ho1
    subst ho2
    rfl

/-- Witness for C8: determinism applied at a concrete decoder and input. -/
theorem claim_C8_witness :
    preprocess_image_fast (fun _ => imgW) [] =
      preprocess_image_fast (fun _ => imgW) [] :=
  (claim_C8 (fun _ => imgW) []).2 _ _ ⟨_, _, rfl, rfl, rfl⟩ ⟨_, _, rfl, rfl, rfl⟩

/-! ### Equivalence of the two Otsu formulations -/

lemma cumN_le_totN (hst : Nat → Nat) {t : Nat} (ht : t ≤ 255) :
    cumN hst t ≤ totN hst := by
  unfold totN cumN
  exact Finset.sum_le_sum_of_subset (Finset.range_subset.mpr (by omega))

lemma sigmaB_nonneg (hst : Nat → Nat) {t : Nat} (ht : t ≤ 255) :
    0 ≤ sigmaB hst t := by
  unfold sigmaB
  refine mul_nonneg (mul_nonneg ?_ ?_) (sq_nonneg _)
  · unfold q1
    exact div_nonneg (Nat.cast_nonneg _) (Nat.cast_nonneg _)
  · unfold q1
    rw [sub_nonneg]
    apply div_le_one_of_le₀
    · exact_mod_cast cumN_le_totN hst ht
    · exact Nat.cast_nonneg _

/-- Law of total variance over the two-class split: the between-class
variance is the total variance minus the intra-class variance. -/
lemma sigmaB_eq_totalVar_sub_intraVar (hst : Nat → Nat) {t : Nat}
    (hv1 : 0 < cumN hst t) (hv2 : cumN hst t < totN hst) :
    sigmaB hst t = totalVar hst - intraVar hst t := by
  have ha : ((cumN hst t : ℚ)) ≠ 0 := by
    have : (0 : ℚ) < (cumN hst t : ℚ) := by exact_mod_cast hv1
    linarith
  have haN : ((cumN hst t : ℚ)) < (totN hst : ℚ) := by exact_mod_cast hv2
  have hN : ((totN hst : ℚ)) ≠ 0 := by linarith [ha, haN]
  have hb : ((totN hst : ℚ)) - (cumN hst t : ℚ) ≠ 0 := by linarith
  unfold sigmaB intraVar totalVar q1 var1 var2 mu1 mu2
  field_simp
  ring

/-- Correspondence between the scan states of the two formulations: same
current best threshold, and the recorded best scores are complementary with
respect to the total variance (`-1` corresponds to `none`). -/
def StRel (hst : Nat → Nat) (a : Nat × ℚ) (b : Nat × Option ℚ) : Prop :=
  a.1 = b.1 ∧
    ((a.2 = -1 ∧ b.2 = none) ∨ ∃ m, b.2 = some m ∧ a.2 = totalVar hst - m)

lemma stRel_step (hst : Nat → Nat) {a : Nat × ℚ} {b : Nat × Option ℚ}
    (t : Nat) (ht : t ≤ 255) (h : StRel hst a b) :
    StRel hst (otsuStep hst a t) (specOtsuStep hst b t) := by
  obtain ⟨hfst, hrest⟩ := h
  by_cases hv : 0 < cumN hst t ∧ cumN hst t < totN hst
  · have hid := sigmaB_eq_totalVar_sub_intraVar hst hv.1 hv.2
    have hnn := sigmaB_nonneg hst ht
    rcases hrest with ⟨ha, hb⟩ | ⟨m, hb, ha⟩
    · rw [otsuStep, if_pos ⟨hv.1, hv.2, by rw [ha]; linarith⟩,
        specOtsuStep, if_pos hv, hb]
      exact ⟨rfl, Or.inr ⟨intraVar hst t, rfl, by rw [hid]⟩⟩
    · rw [otsuStep, specOtsuStep, if_pos hv, hb]
      dsimp only
      by_cases hlt : intraVar hst t < m
      · rw [if_pos ⟨hv.1, hv.2, by rw [ha, hid]; linarith⟩, if_pos hlt]
        exact ⟨rfl, Or.inr ⟨intraVar hst t, rfl, by rw [hid]⟩⟩
      · rw [if_neg (by
          rintro ⟨-, -, hgt⟩
          rw [ha, hid] at hgt
          exact hlt (by linarith)), if_neg hlt]
        exact ⟨hfst, Or.inr ⟨m, hb, ha⟩⟩
  · rw [otsuStep, if_neg (by rintro ⟨h1, h2, -⟩; exact hv ⟨h1, h2⟩),
      specOtsuStep, if_neg hv]
    exact ⟨hfst, hrest⟩

lemma foldl_stRel (hst : Nat → Nat) (l : List Nat) (hl : ∀ t ∈ l, t ≤ 255) :
    ∀ (a : Nat × ℚ) (b : Nat × Option ℚ), StRel hst a b →
      StRel hst (l.foldl (otsuStep hst) a) (l.foldl (specOtsuStep hst) b) := by
  induction l with
  | nil => exact fun a b h => h
  | cons t r ih =>
    intro a b h
    simp only [List.foldl_cons]
    exact ih (fun u hu => hl u (by simp [hu])) _ _
      (stRel_step hst t (hl t (by simp)) h)

/-- OpenCV's between-class-variance-maximizing Otsu scan selects the same
threshold as the spec's intra-class-variance-minimizing selection. -/
theorem otsuThreshold_eq_spec (hst : Nat → Nat) :
    otsuThreshold hst = specOtsuThreshold hst := by
  unfold otsuThreshold specOtsuThreshold
  exact (foldl_stRel hst (List.range 256)
    (fun t ht => by simp only [List.mem_range] at ht; omega)
    (0, -1) (0, none) ⟨rfl, Or.inl ⟨rfl, rfl⟩⟩).1

/-- Claim C6: `preprocess_image_fast` computes exactly the staged algorithm
of the spec — decode to grayscale (shared external codec), binarize at the
global threshold of Otsu's method stated as intra-class-variance
minimization, then one fixed 3x3 sharpening convolution, one pass per
stage. -/
theorem claim_C6 (decode : List Nat → Img) (image_bytes : List Nat) :
    preprocess_image_fast decode image_bytes = prepare_fast_spec decode image_bytes := by
  unfold preprocess_image_fast prepare_fast_spec
  dsimp only
  rw [otsuThreshold_eq_spec]
